import Mathlib

/-!
Verification of the `pdh` record-processing pipeline (src/pdh/core.py and
src/pdh/main.py) against its natural-language specification.

The embedding follows the Python source.  Python dictionaries become ordered
association lists, Python strings are Lean strings manipulated through their
character lists (so that everything reduces inside the kernel), exceptions
become explicit `Except`/result values, and the external collaborators (the
PagerDuty client, the regex engine `re`, the filesystem, rule subprocesses)
are passed in as explicit data.  Components of the repository that are only
imported by the two source files (the `Filters`, `Transformations`, `Filter`
and `pd` modules) are modelled from the specification; each such definition
carries a doc comment starting with `Modelled from the spec:`.
-/

/-! ## String helpers

Python string primitives (`split`, `lower`, `strip`, `in`, comparison) over
the character list of a Lean string, so that all definitions evaluate by
kernel reduction. -/

/-- Strict character comparison, as Python compares characters by code point. -/
def charLt (a b : Char) : Bool := a.val < b.val

/-- Lexicographic strict comparison of character lists (Python string `<`). -/
def charListLt : List Char → List Char → Bool
  | [], [] => false
  | [], _ :: _ => true
  | _ :: _, [] => false
  | a :: as, b :: bs => charLt a b || (a == b && charListLt as bs)

/-- Python string `a < b` (lexicographic by code point). -/
def strLt (a b : String) : Bool := charListLt a.data b.data

def splitOnCharAux (c : Char) : List Char → List (List Char)
  | [] => [[]]
  | x :: xs =>
    let r := splitOnCharAux c xs
    if x == c then [] :: r
    else
      match r with
      | [] => [[x]]
      | h :: t => (x :: h) :: t

/-- Python `s.split(c)` for a one-character separator. -/
def pySplit (s : String) (c : Char) : List String :=
  (splitOnCharAux c s.data).map (fun l => String.mk l)

/-- Python `c in s` for a single character. -/
def strContainsChar (s : String) (c : Char) : Bool := s.data.contains c

/-- Python `s.lower()`. -/
def strLower (s : String) : String := String.mk (s.data.map Char.toLower)

/-- Python `s.strip()` (whitespace only, as used by the source). -/
def strStrip (s : String) : String :=
  String.mk (((s.data.dropWhile (· == ' ')).reverse.dropWhile (· == ' ')).reverse)

/-- Python `s.lower().strip().split(",")`, the field-list parsing idiom of
`core.py` (`fields.lower().strip().split(",")`). -/
def pyFieldSplit (s : String) : List String := pySplit (strStrip (strLower s)) ','

/-! ## Record data model (spec section 3)

A Record is an ordered mapping from string keys to JSON-like values; the
Python side uses `dict`s produced by the PagerDuty client. -/

inductive Value where
  | vNull : Value
  | vStr : String → Value
  | vList : List Value → Value
  | vDict : List (String × Value) → Value

/-- A record: an ordered association list of string keys to values, embedding
a Python `dict` (insertion ordered, unique keys). -/
def Record : Type := List (String × Value)

/-- Python `r[k]` / `k in r` lookup on a dict: first matching key. -/
def lookupField (r : Record) (k : String) : Option Value :=
  match r with
  | [] => none
  | (k', v) :: rest => if k' == k then some v else lookupField rest k

/-- Python dict assignment `r[k] = v`: replace in place if the key exists
(keeping its position, as `dict` does), otherwise append. -/
def dictSet {β : Type} (r : List (String × β)) (k : String) (v : β) :
    List (String × β) :=
  match r with
  | [] => [(k, v)]
  | (k', v') :: rest => if k' == k then (k, v) :: rest else (k', v') :: dictSet rest k v

/-- Resolution of a dotted field path through nested dictionaries, starting
from a record.  Modelled from the spec: keys addressed by dotted path
(e.g. `service.summary`) resolve through nested mappings; an absent path is
reported as `none`. -/
def getPathSegs (r : Record) (segs : List String) : Option Value :=
  match segs with
  | [] => none
  | [k] => lookupField r k
  | k :: rest =>
    match lookupField r k with
    | some (Value.vDict d) => getPathSegs d rest
    | _ => none

/-- Dotted-path lookup from a path string. -/
def getPath (r : Record) (path : String) : Option Value :=
  getPathSegs r (pySplit path '.')

/-- Modelled from the spec: stringification of a value for regex filtering
and set membership ("the stringified value at fieldPath").  The tool only
filters on string-valued fields; non-string values stringify to the empty
string in this model. -/
def valueToString (v : Value) : String :=
  match v with
  | Value.vStr s => s
  | _ => ""

/-! ## Sort Engine (spec section 4.4)

`core.py` sorts with Python's built-in `sorted(key=..., reverse=...)`.
CPython's sort is stable; `reverse=True` reverses the comparison but
documentedly keeps elements with equal keys in their original order.  A
stable sort under a strict weak order is unique, so we embed `sorted` as a
stable insertion sort parameterised by the strict `goes-before` test. -/

/-- Insert `x` after every element that strictly precedes it; ties keep the
existing element first, which (because `pySortCore` inserts earlier input
elements into the sorted tail) places earlier input elements first. -/
def pyInsert {α : Type} (lt : α → α → Bool) (x : α) : List α → List α
  | [] => [x]
  | y :: ys => if lt y x then y :: pyInsert lt x ys else x :: y :: ys

/-- Stable sort by a strict comparison (the behaviour of Python `sorted`). -/
def pySortCore {α : Type} (lt : α → α → Bool) : List α → List α
  | [] => []
  | x :: xs => pyInsert lt x (pySortCore lt xs)

/-- Python `sorted(l, key=key, reverse=rev)`: stable sort where `reverse`
flips the key comparison (CPython keeps ties in original order either way). -/
def pySorted {α K : Type} (lt : K → K → Bool) (key : α → K) (rev : Bool)
    (l : List α) : List α :=
  pySortCore (fun a b => if rev then lt (key b) (key a) else lt (key a) (key b)) l

/-- Strict comparison on values: Python compares the string values the tool
sorts on; value pairs outside that fragment (where Python would raise
`TypeError`) are treated as incomparable. -/
def Value.ltb (a b : Value) : Bool :=
  match a, b with
  | Value.vStr x, Value.vStr y => strLt x y
  | _, _ => false

/-- Lexicographic strict comparison of key tuples, as Python compares the
lists produced by `key=lambda x: [x[k] for k in sort_fields]`. -/
def valueListLt : List Value → List Value → Bool
  | [], [] => false
  | [], _ :: _ => true
  | _ :: _, [] => false
  | a :: as, b :: bs => Value.ltb a b || (!Value.ltb b a && valueListLt as bs)

/-- Evaluation of a Python list comprehension whose body may raise: `none`
embeds the exception propagating out of the comprehension. -/
def optMapM {α β : Type} (f : α → Option β) : List α → Option (List β)
  | [] => some []
  | x :: xs =>
    match f x, optMapM f xs with
    | some y, some ys => some (y :: ys)
    | _, _ => none

/-- The sort key of `core.py:365`: `[x[k] for k in sort_fields]`; `none`
embeds the `KeyError` raised when a record lacks one of the fields. -/
def sortKey (sortFields : List String) (r : Record) : Option (List Value) :=
  optMapM (fun k => lookupField r k) sortFields

/-- The sort step of `PDH.list_incidents` (`core.py:362-365`):
`sorted(filtered, key=lambda x: [x[k] for k in sort_fields], reverse=...)`.
CPython extracts the key of every element up front (decorate-sort-undecorate),
so a missing field on any record raises `KeyError` — embedded as `none`.
No default value is ever substituted for a missing key. -/
def sortApply (sortFields : List String) (rev : Bool) (rs : List Record) :
    Option (List Record) :=
  (optMapM (fun r => (sortKey sortFields r).map (fun k => (k, r))) rs).map
    (fun keyed => (pySorted valueListLt Prod.fst rev keyed).map Prod.snd)

/-- The single-key variant used by `PDH.list_services` (`core.py:179`):
`sorted(filtered, key=lambda x: x[sort_fields], reverse=...)`. -/
def sortApplySingle (f : String) (rev : Bool) (rs : List Record) :
    Option (List Record) :=
  (optMapM (fun r => (lookupField r f).map (fun v => (v, r))) rs).map
    (fun keyed => (pySorted Value.ltb Prod.fst rev keyed).map Prod.snd)

/-! ## External constants and collaborators

The `pd`, `Filters`, `Transformations`, `Filter` and `output` modules are not
part of the two source files; the definitions below model them from the
specification.  Status/urgency constants carry the PagerDuty wire values the
spec scenarios use ("triggered", "acknowledged", "high", "low"). -/

/-- Modelled from the spec: `pd.STATUS_TRIGGERED`. -/
def STATUS_TRIGGERED : String := "triggered"

/-- Modelled from the spec: `pd.STATUS_ACK`. -/
def STATUS_ACK : String := "acknowledged"

/-- Modelled from the spec: `pd.STATUS_RESOLVED`. -/
def STATUS_RESOLVED : String := "resolved"

/-- Modelled from the spec: `pd.URGENCY_HIGH`. -/
def URGENCY_HIGH : String := "high"

/-- Modelled from the spec: `pd.URGENCY_LOW`. -/
def URGENCY_LOW : String := "low"

/-- Modelled from the spec: `pd.DEFAULT_URGENCIES`. -/
def DEFAULT_URGENCIES : List String := [URGENCY_HIGH, URGENCY_LOW]

/-! ## Filter Engine (spec section 4.1) -/

/-- Modelled from the spec (section 4.1): `Filters.apply` / `Filter.apply` —
a record is retained iff all predicates return true (logical AND). -/
def filtersApply (preds : List (Record → Bool)) (rs : List Record) :
    List Record :=
  rs.filter (fun r => preds.all (fun p => p r))

/-- Modelled from the spec (section 4.1): `Filters.regexp(fieldPath, pattern)`
— true iff the stringified value at the field path matches the pattern
(search); a record with a missing field is treated as not matching.  A
compiled pattern is embedded as its match predicate on strings. -/
def filterRegexp (path : String) (re : String → Bool) (r : Record) : Bool :=
  match getPath r path with
  | some v => re (valueToString v)
  | none => false

/-- Modelled from the spec (section 4.1): `Filters.not_regexp` — the logical
negation of `filterRegexp`, so a record with a missing field is included. -/
def filterNotRegexp (path : String) (re : String → Bool) (r : Record) : Bool :=
  !(filterRegexp path re r)

/-- Modelled from the spec (section 4.1): `Filter.inList(fieldPath, values)` —
membership of the stringified value in the allowed set (string compare);
a missing field yields no match. -/
def filterInList (path : String) (allowed : List String) (r : Record) : Bool :=
  match getPath r path with
  | some v => allowed.contains (valueToString v)
  | none => false

/-! ## Transformation Engine (spec section 4.2) -/

/-- An extraction rule (spec section 4.2): evaluated against the original
record to produce the value of one output field. -/
def TransformRule : Type := Record → Value

/-- Modelled from the spec (section 4.2): `Transformations.apply(records,
spec, preserve)` — for each record, evaluate every `(outputField, rule)` pair
against the original record; with `preserve` the computed fields overlay a
copy of the original, otherwise the result holds only the computed fields in
spec key order. -/
def transformsApply (spec : List (String × TransformRule)) (preserve : Bool)
    (rs : List Record) : List Record :=
  rs.map (fun r =>
    if preserve then spec.foldl (fun acc kf => dictSet acc kf.1 (kf.2 r)) r
    else spec.map (fun kf => (kf.1, kf.2 r)))

/-- Modelled from the spec: `Transformations.extract(path)` — plain dotted
path lookup; a missing path produces null rather than raising. -/
def extractRule (path : String) : TransformRule :=
  fun r => (getPath r path).getD Value.vNull

/-- Modelled from the spec (section 4.2): decorated extraction
(`Transformations.extract_decorate`).  The raw value is rewritten through the
value-to-display-label table `changeMap`; a custom map function, when
supplied, takes precedence and receives the extracted item together with the
full original record.  The colour annotation is presentational metadata for
the renderer and is not part of the record model. -/
def extractDecorate (path : String) (changeMap : List (String × String))
    (mapFunc : Option (Value → Record → Value)) : TransformRule := fun r =>
  let v := (getPath r path).getD Value.vNull
  match mapFunc with
  | some f => f v r
  | none =>
    match v with
    | Value.vStr s =>
      match changeMap.lookup s with
      | some s' => Value.vStr s'
      | none => v
    | _ => v

/-- Modelled from the spec (section 4.2): `Transformations.extract_date` —
reparse and re-emit a timestamp.  The reformatting is presentational and is
embedded as the identity on the stored value; a missing or unparseable field
passes through unchanged and never raises. -/
def extractDate (path : String) : TransformRule :=
  fun r => (getPath r path).getD Value.vNull

/-- Modelled from the spec (section 4.2): `Transformations.extract_assignees`
— flatten the nested assignment sub-structure to a display string (the
assignee summaries joined by commas). -/
def extractAssignees : TransformRule := fun r =>
  match lookupField r "assignments" with
  | some (Value.vList as) =>
    Value.vStr (String.intercalate ", " (as.map (fun a =>
      match a with
      | Value.vDict d =>
        valueToString ((getPathSegs d ["assignee", "summary"]).getD Value.vNull)
      | _ => "")))
  | _ => Value.vNull

/-- Modelled from the spec (section 4.2): `Transformations.extract_alerts
(field, alert_fields)` — project each already-attached alert sub-record to
the given field list.  The call at `core.py:349` receives only the field name
and the sub-field list (no client handle), so this extraction performs no
network call; the alert fetch happens once per record in the enrichment loop
at `core.py:311-313`. -/
def extractAlerts (path : String) (alertFields : List String) :
    TransformRule := fun r =>
  match lookupField r path with
  | some (Value.vList as) =>
    Value.vList (as.map (fun a =>
      match a with
      | Value.vDict d =>
        Value.vDict (alertFields.map (fun f => (f, (getPath d f).getD Value.vNull)))
      | v => v))
  | _ => Value.vNull

/-- Modelled from the spec: `Transformations.extract_users_teams` — flatten a
user's team summaries to a display string. -/
def extractUsersTeams : TransformRule := fun r =>
  match lookupField r "teams" with
  | some (Value.vList ts) =>
    Value.vStr (String.intercalate ", " (ts.map (fun t =>
      match t with
      | Value.vDict d => valueToString ((lookupField d "summary").getD Value.vNull)
      | _ => "")))
  | _ => Value.vNull

/-- The `mapper` closure of `core.py:340-343`: style the item red when the
record's urgency is high, cyan otherwise. -/
def incTitleMapper : Value → Record → Value := fun item d =>
  let s := valueToString item
  match lookupField d "urgency" with
  | some (Value.vStr u) =>
    if u == URGENCY_HIGH then Value.vStr ("[red]" ++ s ++ "[/red]")
    else Value.vStr ("[cyan]" ++ s ++ "[/cyan]")
  | _ => Value.vStr ("[cyan]" ++ s ++ "[/cyan]")

/-- One step of the transformation table built by `PDH.list_incidents`
(`core.py:318-349`): the plain extraction for the field, then the special
cases, assigned into the dict in source order. -/
def incStep (alertFields : List String) (t : List (String × TransformRule))
    (f : String) : List (String × TransformRule) :=
  let t1 := dictSet t f (extractRule f)
  let t2 := if f == "assignee" then dictSet t1 f extractAssignees else t1
  let t3 := if f == "status" then
      dictSet t2 f (extractDecorate "status"
        [(STATUS_TRIGGERED, "✘"), (STATUS_ACK, "✔"), (STATUS_RESOLVED, "✔")] none)
    else t2
  let t4 := if f == "url" then dictSet t3 f (extractRule "html_url") else t3
  let t5 := if f == "urgency" then
      dictSet t4 f (extractDecorate "urgency"
        [(URGENCY_HIGH, "HIGH"), (URGENCY_LOW, "LOW")] none)
    else t4
  let t6 := if f == "service.summary" then
      dictSet t5 "service" (extractRule "service.summary")
    else t5
  let t7 := if f == "title" || f == "urgency" then
      dictSet t6 f (extractDecorate f [] (some incTitleMapper))
    else t6
  let t8 := if f == "created_at" || f == "last_status_change_at" then
      dictSet t7 f (extractDate f)
    else t7
  if f == "alerts" then dictSet t8 f (extractAlerts f alertFields) else t8

/-- The transformation table of `PDH.list_incidents` (`core.py:316-349`). -/
def buildIncTransforms (fields alertFields : List String) :
    List (String × TransformRule) :=
  fields.foldl (incStep alertFields) []

/-- One step of the transformation table of `PDH.list_services`
(`core.py:147-159`). -/
def svcStep (t : List (String × TransformRule)) (f : String) :
    List (String × TransformRule) :=
  let t1 := dictSet t f (extractRule f)
  let t2 := if f == "status" then
      dictSet t1 f (extractDecorate "status"
        [("active", "OK"), ("warning", "WARN"), ("critical", "CRIT"),
         ("unknown", "❔"), ("disabled", "off")] none)
    else t1
  let t3 := if f == "url" then dictSet t2 f (extractRule "html_url") else t2
  if f == "created_at" || f == "updated_at" then dictSet t3 f (extractDate f)
  else t3

/-- The transformation table of `PDH.list_services` (`core.py:145-159`). -/
def buildSvcTransforms (fields : List String) :
    List (String × TransformRule) :=
  fields.foldl svcStep []

/-- The transformation table of `PDH.list_user` (`core.py:47-51`). -/
def buildUserTransforms (fields : List String) :
    List (String × TransformRule) :=
  let t := fields.foldl (fun t f => dictSet t f (extractRule f)) []
  if fields.contains "teams" then dictSet t "teams" extractUsersTeams else t

/-- The transformation table of `PDH.list_teams` (`core.py:113-116`). -/
def buildTeamTransforms (fields : List String) :
    List (String × TransformRule) :=
  fields.foldl (fun t f => dictSet t f (extractRule f)) []

/-! ## Exceptions, events, and the external world -/

/-- A Python exception escaping or caught by the commands: the
`UnauthorizedException` of the pd client, `KeyError`, or anything else. -/
inductive PyExn where
  | unauthorized : String → PyExn
  | keyError : String → PyExn
  | otherExn : String → PyExn

/-- The observable effects of a command, in execution order: network calls,
user-visible prints, rendering, and the bulk actions (the per-incident
confirmation prints after an action are presentational and not traced). -/
inductive Event where
  | fetchIncidents : List String → List String → Event
  | userLookup : String → Event
  | warnNoRules : String → Event
  | ruleApplied : String → Event
  | ruleError : String → Event
  | printRuleOutput : String → Event
  | alertFetch : Value → Event
  | render : String → List Record → Event
  | printInvalidRegex : String → Event
  | printInvalidSortField : String → Event
  | printAvailableFields : List String → Event
  | printUnauthorized : String → Event
  | actAck : List Record → Event
  | actSnooze : List Record → Event
  | actResolve : List Record → Event
  | sleepFor : Nat → Event
  | clearScreen : Event

/-- A file found by the recursive `os.walk` over the rules directory,
together with its executable bit (`os.access(fullpath, os.X_OK)`). -/
structure FSEntry where
  path : String
  executable : Bool

/-- Rule discovery (`core.py:274-280`): walk the rules directory recursively
and keep exactly the files the filesystem marks executable, in walk order. -/
def discoverScripts (fs : List FSEntry) : List String :=
  (fs.filter (fun e => e.executable)).map (fun e => e.path)

/-- The external PagerDuty client and surrounding world as the commands see
them: the data each call returns (an `Except` error embeds the exception the
call raises), the filesystem under the rules path, and the rule subprocess
runner. -/
structure PDClient where
  incidentsList : Except PyExn (List Record)
  alertsFor : Value → List Record
  usersList : Except PyExn (List Record)
  teamsList : Except PyExn (List Record)
  servicesList : Except PyExn (List Record)
  userIdOf : String → Except PyExn Value
  uid : Value
  meRecord : Except PyExn Record
  rulesFs : List FSEntry
  runScript : String → List Record → Except String (List Record)

/-! ## Rule Executor (spec section 4.3) -/

/-- Modelled from the spec (section 4.3): `pd.incidents.apply` — run the
discovered scripts sequentially in discovery order, threading the record
sequence; on success the success callback fires (a `ruleApplied` event), on
failure the error callback fires (a `ruleError` event) and the aggregate call
reports the error string.  The spec leaves open whether later scripts still
run after a failure; this model stops at the first failure. -/
def rulesApply (runScript : String → List Record → Except String (List Record)) :
    List String → List Record → Except String (List Record) × List Event
  | [], rs => (.ok rs, [])
  | s :: rest, rs =>
    match runScript s rs with
    | .ok rs' =>
      let next := rulesApply runScript rest rs'
      (next.1, Event.ruleApplied s :: next.2)
    | .error e => (.error e, [Event.ruleError e])

/-- The rules stage of `PDH.list_incidents` (`core.py:273-295`): discover
executable scripts, warn when none are found, run the executor, and keep the
input sequence (printing the error string) when the executor fails. -/
def stageRules (pd : PDClient) (rulesPath : String) (rs : List Record) :
    List Record × List Event :=
  let scripts := discoverScripts pd.rulesFs
  let warnEv := if scripts.isEmpty then [Event.warnNoRules rulesPath] else []
  let ran := rulesApply pd.runScript scripts rs
  match ran.1 with
  | .ok rs' => (rs', warnEv ++ ran.2)
  | .error e => (rs, warnEv ++ ran.2 ++ [Event.printRuleOutput e])

/-! ## The incident Query Loop (`PDH.list_incidents`, `core.py:193-394`) -/

/-- The arguments of `PDH.list_incidents` (`core.py:193-219`).  The title
patterns stay as the raw strings handed to `re.compile`; the service patterns
are embedded as already-compiled match predicates because the source passes
them to the external filter constructor as-is. -/
structure IncArgs where
  everything : Bool := false
  user : Option String := none
  new : Bool := true
  ack : Bool := false
  output : String := "table"
  snooze : Bool := false
  resolve : Bool := false
  high : Bool := false
  low : Bool := false
  watch : Bool := false
  timeout : Nat := 30
  regexp : Option String := none
  excludedFilterRe : Option String := none
  rules : Bool := false
  rulesPath : String := "~/.config/pdh/rules"
  fields : Option String := none
  alerts : Bool := false
  alertFields : Option String := none
  serviceRe : Option (String → Bool) := none
  excludedServiceRe : Option (String → Bool) := none
  sortBy : Option String := none
  reverseSort : Bool := false

/-- Status defaults of `core.py:223-230`. -/
def incStatuses (a : IncArgs) : List String :=
  if !a.new then [STATUS_TRIGGERED, STATUS_ACK] else [STATUS_TRIGGERED]

/-- Urgency defaults of `core.py:224-228` (`low` checked after `high`). -/
def incUrgencies (a : IncArgs) : List String :=
  if a.low then [URGENCY_LOW]
  else if a.high then [URGENCY_HIGH]
  else DEFAULT_URGENCIES

/-- Display-field preparation of `core.py:249-254`. -/
def incFields (a : IncArgs) : List String :=
  let fs := match a.fields with
    | some s => pyFieldSplit s
    | none => ["id", "assignee", "title", "status", "created_at", "service.summary"]
  if a.alerts then fs ++ ["alerts"] else fs

/-- Alert-field preparation of `core.py:256-259`. -/
def incAlertFields (a : IncArgs) : List String :=
  match a.alertFields with
  | some s => pyFieldSplit s
  | none => ["status", "created_at", "service.summary", "body.details"]

/-- The title and service filter stages of `PDH.list_incidents`
(`core.py:297-309`), in source order. -/
def stageFilters (a : IncArgs) (fre fxre : Option (String → Bool))
    (rs : List Record) : List Record :=
  let r1 := match fre with
    | some m => filtersApply [filterRegexp "title" m] rs
    | none => rs
  let r2 := match fxre with
    | some m => filtersApply [filterNotRegexp "title" m] r1
    | none => r1
  let r3 := match a.serviceRe with
    | some m => filtersApply [filterRegexp "service" m]
        (transformsApply [("service", extractRule "service.summary")] true r2)
    | none => r2
  match a.excludedServiceRe with
  | some m => filtersApply [filterNotRegexp "service" m]
      (transformsApply [("service", extractRule "service.summary")] true r3)
  | none => r3

/-- The nested-alerts enrichment loop (`core.py:311-313`): one alert fetch
per record, attaching the result at the `alerts` key; a record without an
`id` raises `KeyError` (events of the records already processed remain). -/
def stageAlerts (alertsFor : Value → List Record) :
    List Record → Option (List Record) × List Event
  | [] => (some [], [])
  | r :: rs =>
    match lookupField r "id" with
    | none => (none, [])
    | some i =>
      let next := stageAlerts alertsFor rs
      (next.1.map (fun l =>
          dictSet r "alerts" (Value.vList ((alertsFor i).map Value.vDict)) :: l),
        Event.alertFetch i :: next.2)

/-- The display transformation of `core.py:316-353`: build the per-field
table and apply it, except in raw output which passes records through. -/
def stageTransform (output : String) (fields alertFields : List String)
    (rs : List Record) : List Record :=
  if output != "raw" then
    transformsApply (buildIncTransforms fields alertFields) false rs
  else rs

/-- The sort step of `PDH.list_incidents` (`core.py:362-369`):
`sort_by.split(",") if "," in sort_by else [sort_by]`, then Python `sorted`
over the key tuples; a `KeyError` prints the invalid sort field together with
the valid field list. -/
def stageSort (sortBy : Option String) (rev : Bool) (fields : List String)
    (rs : List Record) : Except (List Event) (List Record) :=
  match sortBy with
  | none => .ok rs
  | some sb =>
    let sf := if strContainsChar sb ',' then pySplit sb ',' else [sb]
    match sortApply sf rev rs with
    | some sorted => .ok sorted
    | none =>
      .error [Event.printInvalidSortField sb, Event.printAvailableFields fields]

/-- The bulk actions of `core.py:373-389`, applied to the pre-transform
records `incs`. -/
def actionEvents (a : IncArgs) (incs : List Record) : List Event :=
  (if a.ack then [Event.actAck incs] else [])
    ++ (if a.snooze then [Event.actSnooze incs] else [])
    ++ (if a.resolve then [Event.actResolve incs] else [])

/-- The outcome of one pass of the `while True` body: fell through to the
bottom, executed `return False`, or raised. -/
inductive PassResult where
  | completed : PassResult
  | returnedFalse : PassResult
  | raised : PyExn → PassResult

/-- One pass of the `while True` body of `PDH.list_incidents`
(`core.py:270-389`): fetch, rules, title/service filters, alert enrichment,
display transformation, sort, render, bulk actions.  `ids = [i["id"] for i in
incs]` at `core.py:374` runs on every pass and raises `KeyError` for a record
without `id`. -/
def incidentPass (pd : PDClient) (a : IncArgs)
    (fre fxre : Option (String → Bool)) : PassResult × List Event :=
  let fetchEv := Event.fetchIncidents (incStatuses a) (incUrgencies a)
  match pd.incidentsList with
  | .error e => (.raised e, [fetchEv])
  | .ok incs0 =>
    let ruled := if a.rules then stageRules pd a.rulesPath incs0 else (incs0, [])
    let incs5 := stageFilters a fre fxre ruled.1
    let enr := if a.alerts then stageAlerts pd.alertsFor incs5 else (some incs5, [])
    match enr.1 with
    | none => (.raised (PyExn.keyError "id"), fetchEv :: (ruled.2 ++ enr.2))
    | some incs6 =>
      let fields := incFields a
      let filtered := stageTransform a.output fields (incAlertFields a) incs6
      match stageSort a.sortBy a.reverseSort fields filtered with
      | .error evS => (.returnedFalse, fetchEv :: (ruled.2 ++ enr.2 ++ evS))
      | .ok sorted =>
        match optMapM (fun r => lookupField r "id") incs6 with
        | none => (.raised (PyExn.keyError "id"),
            fetchEv :: (ruled.2 ++ enr.2 ++ [Event.render a.output sorted]))
        | some _ =>
          (.completed,
            fetchEv :: (ruled.2 ++ enr.2 ++ [Event.render a.output sorted]
              ++ actionEvents a incs6))

/-- The result of running `PDH.list_incidents` with a given amount of fuel:
`done v` embeds the Python return value (`none` is the implicit `None` when
the function falls off its end after `break`), `raised` an uncaught
exception, `running` a watch loop still iterating when the fuel runs out. -/
inductive LoopResult where
  | done : Option Bool → LoopResult
  | raised : PyExn → LoopResult
  | running : LoopResult

/-- The `while True` loop of `core.py:270-394`, unrolled `fuel` passes: when
`watch` is off the pass ends in `break`; when on, the loop sleeps the
configured timeout, clears the console, and runs the next pass. -/
def incLoop (pd : PDClient) (a : IncArgs)
    (fre fxre : Option (String → Bool)) : Nat → LoopResult × List Event
  | 0 => (.running, [])
  | n + 1 =>
    let p := incidentPass pd a fre fxre
    match p.1 with
    | .returnedFalse => (.done (some false), p.2)
    | .raised e => (.raised e, p.2)
    | .completed =>
      if !a.watch then (.done none, p.2)
      else
        let next := incLoop pd a fre fxre n
        (next.1, p.2 ++ [Event.sleepFor a.timeout, Event.clearScreen] ++ next.2)

/-- The up-front regex compilation of `core.py:235-242`: both title patterns
are compiled before the loop inside one `try`; `re.error` aborts the
command.  The external `re` module is passed in as `reCompile`. -/
def compileTitleFilters (reCompile : String → Except String (String → Bool))
    (regexp excluded : Option String) :
    Except String (Option (String → Bool) × Option (String → Bool)) :=
  match regexp with
  | none =>
    match excluded with
    | none => .ok (none, none)
    | some p =>
      match reCompile p with
      | .ok m => .ok (none, some m)
      | .error e => .error e
  | some p =>
    match reCompile p with
    | .error e => .error e
    | .ok m =>
      match excluded with
      | none => .ok (some m, none)
      | some p' =>
        match reCompile p' with
        | .ok m' => .ok (some m, some m')
        | .error e => .error e

/-- The part of `PDH.list_incidents` after the user lookup: regex
compilation, then the query loop. -/
def listIncidentsRest (pd : PDClient)
    (reCompile : String → Except String (String → Bool)) (a : IncArgs)
    (fuel : Nat) : LoopResult × List Event :=
  match compileTitleFilters reCompile a.regexp a.excludedFilterRe with
  | .error e => (.done (some false), [Event.printInvalidRegex e])
  | .ok (fre, fxre) => incLoop pd a fre fxre fuel

/-- `PDH.list_incidents` (`core.py:193-394`).  The user-name lookup of
`core.py:232-233` runs before the regex compilation, as in the source; there
is no handler for `UnauthorizedException` anywhere in the function, so a
client exception propagates out. -/
def listIncidents (pd : PDClient)
    (reCompile : String → Except String (String → Bool)) (a : IncArgs)
    (fuel : Nat) : LoopResult × List Event :=
  match a.user with
  | some u =>
    match pd.userIdOf u with
    | .error e => (.raised e, [Event.userLookup u])
    | .ok _ =>
      let rest := listIncidentsRest pd reCompile a fuel
      (rest.1, Event.userLookup u :: rest.2)
  | none => listIncidentsRest pd reCompile a fuel

/-! ## The other listing commands (`core.py:33-191`) and the CLI boundary -/

/-- How a core listing function returns to its caller: a boolean return
value, or an exception it did not catch. -/
inductive CmdResult where
  | ret : Bool → CmdResult
  | raised : PyExn → CmdResult

/-- `PDH.list_user` (`core.py:33-58`): fetch users, project them to the field
list (raw output skips the projection), render, return `True`; an
`UnauthorizedException` anywhere in the body is caught, printed, and the
function returns `False`.  Any other exception propagates. -/
def listUser (pd : PDClient) (output : String) (fields : Option String) :
    CmdResult × List Event :=
  let fs := match fields with
    | some s => pySplit s ','
    | none => ["id", "name", "email", "time_zone", "role", "job_title", "teams"]
  match pd.usersList with
  | .error (PyExn.unauthorized m) => (.ret false, [Event.printUnauthorized m])
  | .error e => (.raised e, [])
  | .ok users =>
    let filtered := if output == "raw" then users
      else transformsApply (buildUserTransforms fs) false users
    (.ret true, [Event.render output filtered])

/-- `PDH.list_teams` (`core.py:91-126`): take the current user's teams
(`mine`) or the full team list, project to the field list, render; an
`UnauthorizedException` is caught, printed, and `False` returned. -/
def listTeams (pd : PDClient) (mine : Bool) (output : String)
    (fields : Option String) : CmdResult × List Event :=
  match (if mine then
           pd.meRecord.map (fun me =>
             match lookupField me "teams" with
             | some (Value.vList ts) =>
               ts.foldr (fun t acc =>
                 match t with
                 | Value.vDict d => d :: acc
                 | _ => acc) []
             | _ => [])
         else pd.teamsList) with
  | .error (PyExn.unauthorized m) => (.ret false, [Event.printUnauthorized m])
  | .error e => (.raised e, [])
  | .ok teams =>
    let fs := match fields with
      | some s => pyFieldSplit s
      | none => ["id", "summary", "html_url"]
    let filtered := if output != "raw" then
        transformsApply (buildTeamTransforms fs) false teams
      else teams
    (.ret true, [Event.render output filtered])

/-- `PDH.list_services` (`core.py:128-191`): fetch, status filter, display
transformation, the two-shape sort of `core.py:173-179` (a comma in the sort
argument always yields at least two fields, so the list branch applies
exactly when the argument contains a comma), render.  `UnauthorizedException`
and the sort `KeyError` are both caught at the function boundary and return
`False`, the latter printing the invalid sort field and the valid fields. -/
def svcFields (fields : Option String) : List String :=
  match fields with
  | some s => pyFieldSplit s
  | none => ["id", "name", "description", "status", "created_at",
             "updated_at", "html_url"]

/-- The record sequence `PDH.list_services` hands to its sort: the fetched
services filtered by status (`core.py:136`) and projected through the display
transformation unless output is raw (`core.py:144-164`). -/
def svcFiltered (output : String) (fields : Option String) (status : String)
    (svcs0 : List Record) : List Record :=
  let svcs := filtersApply [filterInList "status" (pySplit status ',')] svcs0
  if output != "raw" then
    transformsApply (buildSvcTransforms (svcFields fields)) false svcs
  else svcs

def listServices (pd : PDClient) (output : String) (fields : Option String)
    (sortBy : Option String) (reverseSort : Bool) (status : String) :
    CmdResult × List Event :=
  match pd.servicesList with
  | .error (PyExn.unauthorized m) => (.ret false, [Event.printUnauthorized m])
  | .error e => (.raised e, [])
  | .ok svcs0 =>
    let filtered := svcFiltered output fields status svcs0
    match sortBy with
    | none => (.ret true, [Event.render output filtered])
    | some sb =>
      match (if strContainsChar sb ',' then
               sortApply (pySplit sb ',') reverseSort filtered
             else sortApplySingle sb reverseSort filtered) with
      | none => (.ret false,
          [Event.printInvalidSortField sb,
           Event.printAvailableFields (svcFields fields)])
      | some sorted => (.ret true, [Event.render output sorted])

/-- How a command leaves the process: an exit code (possibly from
`sys.exit`), or a crash with a traceback from an uncaught exception. -/
inductive CmdExit where
  | exit : Nat → CmdExit
  | crash : PyExn → CmdExit

/-- The CLI wrappers of `main.py` for `user ls`, `teams ls`/`mine` and
`svc ls`: `sys.exit(1)` when the core function returns a falsy value, normal
exit 0 otherwise; an uncaught exception crashes the process. -/
def wrapCmd (r : CmdResult × List Event) : CmdExit :=
  match r.1 with
  | .ret true => .exit 0
  | .ret false => .exit 1
  | .raised e => .crash e

/-- Exit status of `pdh inc ls` (`main.py:148-322`): `main.inc_list` inlines
the same pipeline as `PDH.list_incidents` and calls `sys.exit(-2)` exactly at
the two sites where `core.py` returns `False` (invalid regular expression at
`main.py:172`, invalid sort field at `main.py:297`); a non-watch run that
completes falls out of the loop and exits 0; an uncaught exception crashes
the process.  Python reports `sys.exit(-2)` as status 254.  `none` embeds a
watch loop still running when the fuel runs out. -/
def incListCmd (pd : PDClient)
    (reCompile : String → Except String (String → Bool)) (a : IncArgs)
    (fuel : Nat) : Option CmdExit :=
  match listIncidents pd reCompile a fuel with
  | (.done (some false), _) => some (.exit 254)
  | (.done _, _) => some (.exit 0)
  | (.raised e, _) => some (.crash e)
  | (.running, _) => none

/-! ## Concrete data for scenarios and witnesses -/

/-- Python truthiness of the value `PDH.list_incidents` returns: the
declared type is `bool`, but both `None` (the fall-off-the-end value) and
`False` are falsy to a caller testing the result. -/
def pyFalsy : Option Bool → Bool
  | some true => false
  | _ => true

/-- Recogniser for alert-fetch events in a trace. -/
def isAlertFetch : Event → Bool
  | Event.alertFetch _ => true
  | _ => false

/-- A record with urgency "low", first in the scenario sequence. -/
def incLow1 : Record := [("id", Value.vStr "i1"), ("urgency", Value.vStr "low")]

/-- A record with urgency "high". -/
def incHigh : Record := [("id", Value.vStr "i2"), ("urgency", Value.vStr "high")]

/-- A second record with urgency "low", after `incHigh` in the scenario. -/
def incLow2 : Record := [("id", Value.vStr "i3"), ("urgency", Value.vStr "low")]

/-- The class of records whose urgency field is exactly the string "low",
used to express that the tied records keep their relative order. -/
def urgencyLowClass (r : Record) : Bool :=
  match lookupField r "urgency" with
  | some (Value.vStr s) => s == "low"
  | _ => false

/-- A demo incident record with the default display fields. -/
def demoInc (i title urg : String) : Record :=
  [("id", Value.vStr i), ("title", Value.vStr title),
   ("urgency", Value.vStr urg), ("status", Value.vStr "triggered"),
   ("created_at", Value.vStr "2026-01-01T00:00:00Z"),
   ("service", Value.vDict [("summary", Value.vStr "svc")]),
   ("assignments", Value.vList [])]

/-- A demo service record. -/
def demoSvc : Record :=
  [("id", Value.vStr "S1"), ("name", Value.vStr "db"),
   ("description", Value.vStr "database"), ("status", Value.vStr "active"),
   ("created_at", Value.vStr "2026-01-01T00:00:00Z"),
   ("updated_at", Value.vStr "2026-01-02T00:00:00Z"),
   ("html_url", Value.vStr "https://x")]

/-- A concrete healthy client: two incidents, one alert per incident, one
active service, empty rules directory. -/
def pdDemo : PDClient := {
  incidentsList := .ok [demoInc "i1" "db down" "high", demoInc "i2" "slow" "low"],
  alertsFor := fun _ => [[("status", Value.vStr "triggered")]],
  usersList := .ok [],
  teamsList := .ok [],
  servicesList := .ok [demoSvc],
  userIdOf := fun _ => .ok (Value.vStr "U1"),
  uid := Value.vStr "U0",
  meRecord := .ok [],
  rulesFs := [],
  runScript := fun _ rs => .ok rs }

/-- A client whose every call raises `UnauthorizedException`. -/
def pdUnauthorized : PDClient := {
  incidentsList := .error (PyExn.unauthorized "Unauthorized"),
  alertsFor := fun _ => [],
  usersList := .error (PyExn.unauthorized "Unauthorized"),
  teamsList := .error (PyExn.unauthorized "Unauthorized"),
  servicesList := .error (PyExn.unauthorized "Unauthorized"),
  userIdOf := fun _ => .error (PyExn.unauthorized "Unauthorized"),
  uid := Value.vStr "U0",
  meRecord := .error (PyExn.unauthorized "Unauthorized"),
  rulesFs := [],
  runScript := fun _ rs => .ok rs }

/-- A regex engine accepting every pattern (and matching everything). -/
def reAccept : String → Except String (String → Bool) :=
  fun _ => .ok (fun _ => true)

/-- A regex engine rejecting every pattern, as `re.compile` rejects a
malformed one. -/
def reReject : String → Except String (String → Bool) :=
  fun p => .error ("bad pattern " ++ p)

/-- The default `inc ls` invocation. -/
def argsDefault : IncArgs := {}

/-- A watch-mode invocation with an invalid sort field. -/
def argsWatchBadSort : IncArgs :=
  { watch := true, sortBy := some "nope", timeout := 1 }

/-- A watch-mode invocation with sound arguments. -/
def argsWatch : IncArgs := { watch := true, timeout := 7 }

/-- An invocation with alert enrichment and a bulk acknowledge. -/
def argsAlerts : IncArgs := { alerts := true, ack := true }

/-- An invocation with a title filter pattern (to be rejected by the regex
engine in the malformed-pattern scenarios). -/
def argsBadRe : IncArgs := { regexp := some "(" }

/-! ## Lemmas: stability of the embedded sort -/

theorem charLt_irrefl (c : Char) : charLt c c = false := by
  simp [charLt]

theorem charListLt_irrefl (l : List Char) : charListLt l l = false := by
  induction l with
  | nil => rfl
  | cons c cs ih => simp [charListLt, charLt_irrefl, ih]

theorem strLt_irrefl (s : String) : strLt s s = false := by
  simp [strLt, charListLt_irrefl]

theorem Value.ltb_irrefl (v : Value) : Value.ltb v v = false := by
  cases v <;> simp [Value.ltb, strLt_irrefl]

theorem valueListLt_irrefl (l : List Value) : valueListLt l l = false := by
  induction l with
  | nil => rfl
  | cons v vs ih => simp [valueListLt, Value.ltb_irrefl, ih]

theorem mem_pyInsert {α : Type} (lt : α → α → Bool) (x a : α) (l : List α) :
    a ∈ pyInsert lt x l → a = x ∨ a ∈ l := by
  induction l with
  | nil => simp [pyInsert]
  | cons y ys ih =>
    by_cases h : lt y x = true
    · simp only [pyInsert, h, if_true, List.mem_cons]
      rintro (rfl | hm)
      · exact Or.inr (Or.inl rfl)
      · rcases ih hm with h1 | h2
        · exact Or.inl h1
        · exact Or.inr (Or.inr h2)
    · simp only [Bool.not_eq_true] at h
      simp only [pyInsert, h, Bool.false_eq_true, if_false, List.mem_cons]
      tauto

theorem mem_pySortCore {α : Type} (lt : α → α → Bool) (a : α) :
    ∀ l : List α, a ∈ pySortCore lt l → a ∈ l := by
  intro l
  induction l with
  | nil => simp [pySortCore]
  | cons x xs ih =>
    intro hm
    rcases mem_pyInsert lt x a _ hm with rfl | h
    · exact List.mem_cons_self a xs
    · exact List.mem_cons_of_mem x (ih h)

theorem filter_pyInsert_not_mem {α : Type} (lt : α → α → Bool) (p : α → Bool)
    (x : α) (hx : p x = false) (l : List α) :
    (pyInsert lt x l).filter p = l.filter p := by
  induction l with
  | nil => simp [pyInsert, hx]
  | cons y ys ih =>
    by_cases h : lt y x = true
    · simp only [pyInsert, h, if_true]
      by_cases hy : p y = true
      · simp [List.filter, hy, ih]
      · simp only [Bool.not_eq_true] at hy
        simp [List.filter, hy, ih]
    · simp only [Bool.not_eq_true] at h
      simp [pyInsert, h, List.filter, hx]

theorem filter_pyInsert_mem {α : Type} (lt : α → α → Bool) (p : α → Bool)
    (x : α) (hx : p x = true) :
    ∀ l : List α, (∀ y, y ∈ l → lt y x = true → p y = false) →
    (pyInsert lt x l).filter p = x :: l.filter p := by
  intro l
  induction l with
  | nil => intro _; simp [pyInsert, hx]
  | cons y ys ih =>
    intro hcl
    by_cases h : lt y x = true
    · have hy := hcl y (List.mem_cons_self y ys) h
      have ih' := ih (fun z hz => hcl z (List.mem_cons_of_mem y hz))
      simp [pyInsert, h, List.filter, hy, ih']
    · simp only [Bool.not_eq_true] at h
      simp [pyInsert, h, List.filter, hx]

/-- A stable sort leaves every "same key class" of elements in input order:
filtering the output by a predicate incompatible with strict precedence
yields the same list as filtering the input. -/
theorem filter_pySortCore {α : Type} (lt : α → α → Bool) (p : α → Bool) :
    ∀ l : List α,
    (∀ x y, x ∈ l → y ∈ l → p x = true → p y = true → lt x y = false) →
    (pySortCore lt l).filter p = l.filter p := by
  intro l
  induction l with
  | nil => intro _; rfl
  | cons x xs ih =>
    intro hcl
    have ih' := ih (fun a b ha hb =>
      hcl a b (List.mem_cons_of_mem x ha) (List.mem_cons_of_mem x hb))
    by_cases hx : p x = true
    · have hstep : ∀ y, y ∈ pySortCore lt xs → lt y x = true → p y = false := by
        intro y hy hlt
        by_cases hpy : p y = true
        · have := hcl y x
            (List.mem_cons_of_mem x (mem_pySortCore lt y xs hy))
            (List.mem_cons_self x xs) hpy hx
          rw [this] at hlt
          cases hlt
        · simpa using hpy
      simp only [pySortCore]
      rw [filter_pyInsert_mem lt p x hx _ hstep, ih']
      simp [List.filter, hx]
    · simp only [Bool.not_eq_true] at hx
      simp only [pySortCore]
      rw [filter_pyInsert_not_mem lt p x hx, ih']
      simp [List.filter, hx]

theorem optMapM_keyed {K : Type} (keyOf : Record → Option K) :
    ∀ (rs : List Record) (keyed : List (K × Record)),
    optMapM (fun r => (keyOf r).map (fun k => (k, r))) rs = some keyed →
    keyed.map Prod.snd = rs ∧ ∀ q ∈ keyed, keyOf q.2 = some q.1 := by
  intro rs
  induction rs with
  | nil =>
    intro keyed h
    simp only [optMapM] at h
    cases h
    simp
  | cons r rest ih =>
    intro keyed h
    simp only [optMapM] at h
    cases hk : keyOf r with
    | none => rw [hk] at h; simp at h
    | some k =>
      rw [hk] at h
      cases hrest : optMapM (fun r => (keyOf r).map (fun k => (k, r))) rest with
      | none => rw [hrest] at h; simp at h
      | some ys =>
        rw [hrest] at h
        simp only [Option.map_some'] at h
        cases h
        obtain ⟨h1, h2⟩ := ih ys hrest
        refine ⟨by simp [h1], ?_⟩
        intro q hq
        rcases List.mem_cons.mp hq with rfl | hq'
        · exact hk
        · exact h2 q hq'

/-- Stability of the embedded `sorted` at the level of `sortApply`: any class
of records sharing one extracted key keeps its input order in the output. -/
theorem sortApply_stable (sf : List String) (rev : Bool) (rs out : List Record)
    (p : Record → Bool)
    (hp : ∀ r r', p r = true → p r' = true → sortKey sf r = sortKey sf r')
    (h : sortApply sf rev rs = some out) :
    out.filter p = rs.filter p := by
  unfold sortApply at h
  cases hk : optMapM (fun r => (sortKey sf r).map (fun k => (k, r))) rs with
  | none => rw [hk] at h; simp at h
  | some keyed =>
    rw [hk] at h
    simp only [Option.map_some'] at h
    obtain ⟨hsnd, hinv⟩ := optMapM_keyed (sortKey sf) rs keyed hk
    cases h
    set lt' := fun a b : List Value × Record =>
      if rev then valueListLt b.1 a.1 else valueListLt a.1 b.1 with hlt
    have hcompat : ∀ x y, x ∈ keyed → y ∈ keyed →
        (fun q : List Value × Record => p q.2) x = true →
        (fun q : List Value × Record => p q.2) y = true → lt' x y = false := by
      intro x y hx hy hpx hpy
      have h1 := hinv x hx
      have h2 := hinv y hy
      have hkeq : sortKey sf x.2 = sortKey sf y.2 := hp x.2 y.2 hpx hpy
      rw [h1, h2] at hkeq
      have hxy : x.1 = y.1 := Option.some.inj hkeq
      simp only [hlt, hxy]
      cases rev <;> simp [valueListLt_irrefl]
    have hstep : (pySorted valueListLt Prod.fst rev keyed).filter
        (fun q => p q.2) = keyed.filter (fun q => p q.2) := by
      have : pySorted valueListLt Prod.fst rev keyed = pySortCore lt' keyed := rfl
      rw [this]
      exact filter_pySortCore lt' (fun q => p q.2) keyed hcompat
    calc ((pySorted valueListLt Prod.fst rev keyed).map Prod.snd).filter p
        = ((pySorted valueListLt Prod.fst rev keyed).filter
            (fun q => p q.2)).map Prod.snd := List.filter_map Prod.snd _
      _ = (keyed.filter (fun q => p q.2)).map Prod.snd := by rw [hstep]
      _ = (keyed.map Prod.snd).filter p := (List.filter_map Prod.snd keyed).symm
      _ = rs.filter p := by rw [hsnd]

/-! ## Lemmas: comprehension failure, alert events, pass and loop shapes -/

theorem optMapM_eq_none {α β : Type} (g : α → Option β) :
    ∀ (l : List α) (x : α), x ∈ l → g x = none → optMapM g l = none := by
  intro l
  induction l with
  | nil => intro x hx; cases hx
  | cons a as ih =>
    intro x hx hg
    rcases List.mem_cons.mp hx with rfl | hmem
    · simp only [optMapM, hg]
    · have h2 := ih x hmem hg
      simp only [optMapM, h2]
      cases g a <;> rfl

theorem urgencyLowClass_sortKey (r : Record) (h : urgencyLowClass r = true) :
    sortKey ["urgency"] r = some [Value.vStr "low"] := by
  unfold urgencyLowClass at h
  cases hl : lookupField r "urgency" with
  | none => rw [hl] at h; simp at h
  | some v =>
    rw [hl] at h
    cases v with
    | vStr s =>
      have hs : s = "low" := eq_of_beq h
      subst hs
      simp [sortKey, optMapM, hl]
    | vNull => simp at h
    | vList l => simp at h
    | vDict d => simp at h

theorem stageAlerts_events (f : Value → List Record) :
    ∀ (rs : List Record) (ids : List Value),
    optMapM (fun r => lookupField r "id") rs = some ids →
    (stageAlerts f rs).2 = ids.map Event.alertFetch := by
  intro rs
  induction rs with
  | nil =>
    intro ids h
    simp only [optMapM] at h
    cases h
    rfl
  | cons r rest ih =>
    intro ids h
    simp only [optMapM] at h
    cases hid : lookupField r "id" with
    | none => rw [hid] at h; simp at h
    | some i =>
      rw [hid] at h
      cases hrest : optMapM (fun r => lookupField r "id") rest with
      | none => rw [hrest] at h; simp at h
      | some tl =>
        rw [hrest] at h
        simp only at h
        cases h
        simp [stageAlerts, hid, ih tl hrest]

theorem stageAlerts_len (f : Value → List Record) :
    ∀ rs : List Record, ((stageAlerts f rs).2).length ≤ rs.length := by
  intro rs
  induction rs with
  | nil => simp [stageAlerts]
  | cons r rest ih =>
    cases hid : lookupField r "id" with
    | none => simp [stageAlerts, hid]
    | some i =>
      simp only [stageAlerts, hid, List.length_cons]
      exact Nat.succ_le_succ ih

theorem rulesApply_no_alert
    (run : String → List Record → Except String (List Record)) :
    ∀ (scripts : List String) (rs : List Record),
    ((rulesApply run scripts rs).2).filter isAlertFetch = [] := by
  intro scripts
  induction scripts with
  | nil => intro rs; rfl
  | cons s rest ih =>
    intro rs
    cases hr : run s rs with
    | ok rs' => simp [rulesApply, hr, isAlertFetch, ih rs']
    | error e => simp [rulesApply, hr, isAlertFetch]

theorem stageRules_no_alert (pd : PDClient) (path : String) (rs : List Record) :
    ((stageRules pd path rs).2).filter isAlertFetch = [] := by
  have hru := rulesApply_no_alert pd.runScript (discoverScripts pd.rulesFs) rs
  unfold stageRules
  cases hres : (rulesApply pd.runScript (discoverScripts pd.rulesFs) rs).1 <;>
    by_cases hemp : (discoverScripts pd.rulesFs).isEmpty <;>
      simp [hres, hemp, List.filter_append, hru, isAlertFetch]

theorem actionEvents_no_alert (a : IncArgs) (incs : List Record) :
    (actionEvents a incs).filter isAlertFetch = [] := by
  unfold actionEvents
  by_cases h1 : a.ack <;> by_cases h2 : a.snooze <;> by_cases h3 : a.resolve <;>
    simp [h1, h2, h3, List.filter_append, isAlertFetch]

theorem filter_alertFetch_map (ids : List Value) :
    (ids.map Event.alertFetch).filter isAlertFetch = ids.map Event.alertFetch := by
  induction ids with
  | nil => rfl
  | cons i tl ih => simp [List.filter, isAlertFetch, ih]

theorem incidentPass_completed_eq (pd : PDClient) (a : IncArgs)
    (fre fxre : Option (String → Bool))
    (incs0 incs1 incs6 sorted : List Record) (evR evA : List Event)
    (ids : List Value)
    (hfetch : pd.incidentsList = Except.ok incs0)
    (hrules : (if a.rules then stageRules pd a.rulesPath incs0
               else (incs0, [])) = (incs1, evR))
    (henr : (if a.alerts then
               stageAlerts pd.alertsFor (stageFilters a fre fxre incs1)
             else (some (stageFilters a fre fxre incs1), []))
            = (some incs6, evA))
    (hsort : stageSort a.sortBy a.reverseSort (incFields a)
               (stageTransform a.output (incFields a) (incAlertFields a) incs6)
             = Except.ok sorted)
    (hids : optMapM (fun r => lookupField r "id") incs6 = some ids) :
    incidentPass pd a fre fxre
      = (PassResult.completed,
         Event.fetchIncidents (incStatuses a) (incUrgencies a)
           :: (evR ++ evA ++ [Event.render a.output sorted]
               ++ actionEvents a incs6)) := by
  have hr1 : (if a.rules then stageRules pd a.rulesPath incs0
              else (incs0, [])).1 = incs1 := by rw [hrules]
  have hr2 : (if a.rules then stageRules pd a.rulesPath incs0
              else (incs0, [])).2 = evR := by rw [hrules]
  unfold incidentPass
  rw [hfetch]
  simp only [hr1, hr2]
  have he1 : (if a.alerts then
               stageAlerts pd.alertsFor (stageFilters a fre fxre incs1)
             else (some (stageFilters a fre fxre incs1), [])).1
             = some incs6 := by rw [henr]
  have he2 : (if a.alerts then
               stageAlerts pd.alertsFor (stageFilters a fre fxre incs1)
             else (some (stageFilters a fre fxre incs1), [])).2
             = evA := by rw [henr]
  simp only [he1, he2, hsort, hids]

theorem incidentPass_sortfail_eq (pd : PDClient) (a : IncArgs)
    (fre fxre : Option (String → Bool))
    (incs0 incs1 incs6 : List Record) (evR evA : List Event) (sb : String)
    (hfetch : pd.incidentsList = Except.ok incs0)
    (hrules : (if a.rules then stageRules pd a.rulesPath incs0
               else (incs0, [])) = (incs1, evR))
    (henr : (if a.alerts then
               stageAlerts pd.alertsFor (stageFilters a fre fxre incs1)
             else (some (stageFilters a fre fxre incs1), []))
            = (some incs6, evA))
    (hsb : a.sortBy = some sb)
    (hfail : sortApply (if strContainsChar sb ',' then pySplit sb ',' else [sb])
               a.reverseSort
               (stageTransform a.output (incFields a) (incAlertFields a) incs6)
             = none) :
    incidentPass pd a fre fxre
      = (PassResult.returnedFalse,
         Event.fetchIncidents (incStatuses a) (incUrgencies a)
           :: (evR ++ evA
               ++ [Event.printInvalidSortField sb,
                   Event.printAvailableFields (incFields a)])) := by
  have hr1 : (if a.rules then stageRules pd a.rulesPath incs0
              else (incs0, [])).1 = incs1 := by rw [hrules]
  have hr2 : (if a.rules then stageRules pd a.rulesPath incs0
              else (incs0, [])).2 = evR := by rw [hrules]
  unfold incidentPass
  rw [hfetch]
  simp only [hr1, hr2]
  have he1 : (if a.alerts then
               stageAlerts pd.alertsFor (stageFilters a fre fxre incs1)
             else (some (stageFilters a fre fxre incs1), [])).1
             = some incs6 := by rw [henr]
  have he2 : (if a.alerts then
               stageAlerts pd.alertsFor (stageFilters a fre fxre incs1)
             else (some (stageFilters a fre fxre incs1), [])).2
             = evA := by rw [henr]
  have hs : stageSort a.sortBy a.reverseSort (incFields a)
      (stageTransform a.output (incFields a) (incAlertFields a) incs6)
      = Except.error [Event.printInvalidSortField sb,
                      Event.printAvailableFields (incFields a)] := by
    rw [hsb]
    unfold stageSort
    simp only [hfail]
  simp only [he1, he2, hs]

theorem incLoop_completed_nowatch (pd : PDClient) (a : IncArgs)
    (fre fxre : Option (String → Bool)) (ev : List Event) (n : Nat)
    (hpass : incidentPass pd a fre fxre = (PassResult.completed, ev))
    (hw : a.watch = false) :
    incLoop pd a fre fxre (n + 1) = (LoopResult.done none, ev) := by
  have h1 : (incidentPass pd a fre fxre).1 = PassResult.completed := by rw [hpass]
  have h2 : (incidentPass pd a fre fxre).2 = ev := by rw [hpass]
  simp [incLoop, h1, h2, hw]

theorem incLoop_retFalse (pd : PDClient) (a : IncArgs)
    (fre fxre : Option (String → Bool)) (ev : List Event) (n : Nat)
    (hpass : incidentPass pd a fre fxre = (PassResult.returnedFalse, ev)) :
    incLoop pd a fre fxre (n + 1) = (LoopResult.done (some false), ev) := by
  have h1 : (incidentPass pd a fre fxre).1 = PassResult.returnedFalse := by
    rw [hpass]
  have h2 : (incidentPass pd a fre fxre).2 = ev := by rw [hpass]
  simp [incLoop, h1, h2]

theorem incLoop_raised (pd : PDClient) (a : IncArgs)
    (fre fxre : Option (String → Bool)) (ev : List Event) (e : PyExn) (n : Nat)
    (hpass : incidentPass pd a fre fxre = (PassResult.raised e, ev)) :
    incLoop pd a fre fxre (n + 1) = (LoopResult.raised e, ev) := by
  have h1 : (incidentPass pd a fre fxre).1 = PassResult.raised e := by rw [hpass]
  have h2 : (incidentPass pd a fre fxre).2 = ev := by rw [hpass]
  simp [incLoop, h1, h2]

theorem incLoop_watch_running (pd : PDClient) (a : IncArgs)
    (fre fxre : Option (String → Bool)) (ev : List Event)
    (hpass : incidentPass pd a fre fxre = (PassResult.completed, ev))
    (hw : a.watch = true) :
    ∀ n : Nat, (incLoop pd a fre fxre n).1 = LoopResult.running := by
  have h1 : (incidentPass pd a fre fxre).1 = PassResult.completed := by rw [hpass]
  intro n
  induction n with
  | zero => rfl
  | succ m ih => simp [incLoop, h1, hw, ih]

theorem incLoop_watch_trace (pd : PDClient) (a : IncArgs)
    (fre fxre : Option (String → Bool)) (ev : List Event) (n : Nat)
    (hpass : incidentPass pd a fre fxre = (PassResult.completed, ev))
    (hw : a.watch = true) :
    (incLoop pd a fre fxre (n + 1)).2
      = ev ++ [Event.sleepFor a.timeout, Event.clearScreen]
        ++ (incLoop pd a fre fxre n).2 := by
  have h1 : (incidentPass pd a fre fxre).1 = PassResult.completed := by rw [hpass]
  have h2 : (incidentPass pd a fre fxre).2 = ev := by rw [hpass]
  simp [incLoop, h1, h2, hw]

theorem listIncidents_nouser (pd : PDClient)
    (reC : String → Except String (String → Bool)) (a : IncArgs) (fuel : Nat)
    (hu : a.user = none) :
    listIncidents pd reC a fuel = listIncidentsRest pd reC a fuel := by
  unfold listIncidents
  rw [hu]

theorem listIncidentsRest_ok (pd : PDClient)
    (reC : String → Except String (String → Bool)) (a : IncArgs) (fuel : Nat)
    (fre fxre : Option (String → Bool))
    (hcomp : compileTitleFilters reC a.regexp a.excludedFilterRe
             = Except.ok (fre, fxre)) :
    listIncidentsRest pd reC a fuel = incLoop pd a fre fxre fuel := by
  unfold listIncidentsRest
  rw [hcomp]

theorem listIncidentsRest_error (pd : PDClient)
    (reC : String → Except String (String → Bool)) (a : IncArgs) (fuel : Nat)
    (e : String)
    (hcomp : compileTitleFilters reC a.regexp a.excludedFilterRe
             = Except.error e) :
    listIncidentsRest pd reC a fuel
      = (LoopResult.done (some false), [Event.printInvalidRegex e]) := by
  unfold listIncidentsRest
  rw [hcomp]
theorem stageSort_error_shape (sortBy : Option String) (rev : Bool)
    (fields : List String) (rs : List Record) (evS : List Event)
    (h : stageSort sortBy rev fields rs = Except.error evS) :
    ∃ sb, sortBy = some sb
      ∧ evS = [Event.printInvalidSortField sb,
               Event.printAvailableFields fields] := by
  cases sortBy with
  | none => simp [stageSort] at h
  | some sb =>
    refine ⟨sb, rfl, ?_⟩
    unfold stageSort at h
    cases hsa : sortApply (if strContainsChar sb ',' then pySplit sb ',' else [sb])
        rev rs with
    | some sorted =>
      simp only [hsa] at h
      cases h
    | none =>
      simp only [hsa] at h
      cases h
      rfl

theorem incidentPass_no_alertFetch (pd : PDClient) (a : IncArgs)
    (fre fxre : Option (String → Bool)) (hal : a.alerts = false) :
    ((incidentPass pd a fre fxre).2).filter isAlertFetch = [] := by
  have hevR : ∀ incs0 : List Record,
      ((if a.rules then stageRules pd a.rulesPath incs0
        else (incs0, [])).2).filter isAlertFetch = [] := by
    intro incs0
    by_cases hr : a.rules
    · simp only [hr, if_true]
      exact stageRules_no_alert pd a.rulesPath incs0
    · simp [hr]
  unfold incidentPass
  cases hf : pd.incidentsList with
  | error e => simp [isAlertFetch]
  | ok incs0 =>
    simp only [hal, Bool.false_eq_true, if_false]
    split
    · rename_i evS heq
      obtain ⟨sb, hsb, hevS⟩ := stageSort_error_shape _ _ _ _ _ heq
      subst hevS
      simp only [List.filter_cons, List.filter_append, List.filter_nil,
        isAlertFetch, hevR incs0, List.append_nil, List.nil_append,
        Bool.false_eq_true, if_false]
    · split
      · simp only [List.filter_cons, List.filter_append, List.filter_nil,
          isAlertFetch, hevR incs0, List.append_nil, List.nil_append,
          Bool.false_eq_true, if_false]
      · simp only [List.filter_cons, List.filter_append, List.filter_nil,
          isAlertFetch, hevR incs0, actionEvents_no_alert,
          List.append_nil, List.nil_append, Bool.false_eq_true, if_false]
theorem incidentPass_alertFetch_once (pd : PDClient) (a : IncArgs)
    (fre fxre : Option (String → Bool))
    (incs0 incs1 incs6 sorted : List Record) (evR evA : List Event)
    (ids5 ids6 : List Value)
    (hfetch : pd.incidentsList = Except.ok incs0)
    (hrules : (if a.rules then stageRules pd a.rulesPath incs0
               else (incs0, [])) = (incs1, evR))
    (hal : a.alerts = true)
    (hids5 : optMapM (fun r => lookupField r "id")
               (stageFilters a fre fxre incs1) = some ids5)
    (henr : stageAlerts pd.alertsFor (stageFilters a fre fxre incs1)
            = (some incs6, evA))
    (hsort : stageSort a.sortBy a.reverseSort (incFields a)
               (stageTransform a.output (incFields a) (incAlertFields a) incs6)
             = Except.ok sorted)
    (hids6 : optMapM (fun r => lookupField r "id") incs6 = some ids6) :
    ((incidentPass pd a fre fxre).2).filter isAlertFetch
      = ids5.map Event.alertFetch := by
  have henr' : (if a.alerts then
                 stageAlerts pd.alertsFor (stageFilters a fre fxre incs1)
               else (some (stageFilters a fre fxre incs1), []))
               = (some incs6, evA) := by
    rw [hal]
    simpa using henr
  have hpass := incidentPass_completed_eq pd a fre fxre incs0 incs1 incs6
    sorted evR evA ids6 hfetch hrules henr' hsort hids6
  rw [hpass]
  have hevA : evA = ids5.map Event.alertFetch := by
    have h2 := stageAlerts_events pd.alertsFor
      (stageFilters a fre fxre incs1) ids5 hids5
    rw [henr] at h2
    exact h2
  have hevR : evR.filter isAlertFetch = [] := by
    by_cases hr : a.rules
    · have h3 : (stageRules pd a.rulesPath incs0).2 = evR := by
        have h4 := congrArg Prod.snd hrules
        simpa [hr] using h4
      rw [← h3]
      exact stageRules_no_alert pd a.rulesPath incs0
    · have h3 : evR = [] := by
        have h4 := congrArg Prod.snd hrules
        simpa [hr] using h4
      simp [h3]
  subst hevA
  simp only [List.filter_cons, List.filter_append, List.filter_nil,
    isAlertFetch, hevR, actionEvents_no_alert, filter_alertFetch_map,
    List.append_nil, List.nil_append, Bool.false_eq_true, if_false]

/-! ## Claims -/

/-- Claim C1, counterexample: with reverse requested (`--reverse`, the only
descending knob the code has), sorting records with urgency values low, high,
low by `["urgency"]` yields low, low, high — not high, low, low as the
claim's scenario states.  PagerDuty urgency strings compare alphabetically
("high" < "low"), so the reverse sort puts the low records first, still in
their original relative order. -/
theorem C1_counterexample :
    sortApply ["urgency"] true [incLow1, incHigh, incLow2]
      = some [incLow1, incLow2, incHigh]
    ∧ sortApply ["urgency"] true [incLow1, incHigh, incLow2]
      ≠ some [incHigh, incLow1, incLow2] := by
  refine ⟨rfl, ?_⟩
  intro h
  have he : (some [incLow1, incLow2, incHigh] : Option (List Record))
      = some [incHigh, incLow1, incLow2] :=
    (rfl : sortApply ["urgency"] true [incLow1, incHigh, incLow2]
        = some [incLow1, incLow2, incHigh]).symm.trans h
  have h2 := Option.some.inj he
  have h3 : incLow1 = incHigh := by injection h2
  have h4 : (("id", Value.vStr "i1") : String × Value)
      = ("id", Value.vStr "i2") := by
    unfold incLow1 incHigh at h3
    injection h3
  have h5 := congrArg Prod.snd h4
  have h6 : ("i1" : String) = "i2" := by injection h5
  exact absurd h6 (by decide)

/-- Claim C1 (amended): for every record sequence and every sort invocation,
sorting is stable for equal keys — any class of records sharing one extracted
key keeps its original relative order, with and without reverse, because
reverse flips the whole key comparison rather than reversing the output (so
it is not per-key and does not reverse ties).  On urgency values low, high,
low the ascending sort yields high, low, low, and the reverse (descending)
sort yields low, low, high, the two low records keeping their original
relative order in both directions. -/
theorem C1_sort_stable_reverse :
    (∀ (sf : List String) (rev : Bool) (rs out : List Record)
       (p : Record → Bool),
      (∀ r r', p r = true → p r' = true → sortKey sf r = sortKey sf r') →
      sortApply sf rev rs = some out →
      out.filter p = rs.filter p)
    ∧ sortApply ["urgency"] false [incLow1, incHigh, incLow2]
        = some [incHigh, incLow1, incLow2]
    ∧ sortApply ["urgency"] true [incLow1, incHigh, incLow2]
        = some [incLow1, incLow2, incHigh] :=
  ⟨fun sf rev rs out p hp h => sortApply_stable sf rev rs out p hp h, rfl, rfl⟩

/-- Witness for C1: the stability statement instantiated at the reverse sort
of the scenario records and the class of records whose urgency is "low" —
the two tied records keep their original relative order. -/
theorem C1_sort_stable_reverse_witness :
    ([incLow1, incLow2, incHigh] : List Record).filter urgencyLowClass
      = ([incLow1, incHigh, incLow2] : List Record).filter urgencyLowClass :=
  C1_sort_stable_reverse.1 ["urgency"] true [incLow1, incHigh, incLow2]
    [incLow1, incLow2, incHigh] urgencyLowClass
    (fun r r' hr hr' => by
      rw [urgencyLowClass_sortKey r hr, urgencyLowClass_sortKey r' hr'])
    rfl

/-- Claim C7: for every record lacking the addressed field path and every
pattern, the regex-match filter returns false (record excluded) while the
negated regex filter returns true (record retained). -/
theorem C7_missing_field_filter :
    ∀ (r : Record) (path : String) (re : String → Bool),
      getPath r path = none →
      filterRegexp path re r = false ∧ filterNotRegexp path re r = true := by
  intro r path re h
  unfold filterNotRegexp filterRegexp
  rw [h]
  exact ⟨rfl, rfl⟩

/-- Witness for C7 at a concrete record lacking the path `missing.path`. -/
theorem C7_missing_field_filter_witness :
    filterRegexp "missing.path" (fun _ => true) incHigh = false
    ∧ filterNotRegexp "missing.path" (fun _ => true) incHigh = true :=
  C7_missing_field_filter incHigh "missing.path" (fun _ => true) rfl

/-- Claim C6: rule discovery selects exactly the files the filesystem marks
executable (recursive-walk order), silently ignoring the rest; with zero
discovered scripts the executor returns the input sequence unchanged and
fires neither callback, and the stage only warns (the `warnNoRules` print). -/
theorem C6_rule_discovery :
    (∀ (fs : List FSEntry) (p : String),
      p ∈ discoverScripts fs ↔ ∃ e, e ∈ fs ∧ e.executable = true ∧ e.path = p)
    ∧ (∀ (run : String → List Record → Except String (List Record))
        (rs : List Record), rulesApply run [] rs = (Except.ok rs, []))
    ∧ (∀ (pd : PDClient) (path : String) (rs : List Record),
      discoverScripts pd.rulesFs = [] →
      stageRules pd path rs = (rs, [Event.warnNoRules path])) := by
  refine ⟨?_, fun run rs => rfl, ?_⟩
  · intro fs p
    unfold discoverScripts
    constructor
    · intro h
      rcases List.mem_map.mp h with ⟨e, he, rfl⟩
      rcases List.mem_filter.mp he with ⟨hin, hex⟩
      exact ⟨e, hin, hex, rfl⟩
    · rintro ⟨e, hin, hex, rfl⟩
      exact List.mem_map.mpr ⟨e, List.mem_filter.mpr ⟨hin, hex⟩, rfl⟩
  · intro pd path rs h
    simp [stageRules, h, rulesApply]

/-- Witness for C6: a two-file directory where only the executable one is
discovered, and the empty rules directory of the demo client warns and
passes the records through. -/
theorem C6_rule_discovery_witness :
    "a.sh" ∈ discoverScripts
      [FSEntry.mk "a.sh" true, FSEntry.mk "b.txt" false]
    ∧ rulesApply pdDemo.runScript [] [incHigh] = (Except.ok [incHigh], [])
    ∧ stageRules pdDemo "~/.config/pdh/rules" [incHigh]
      = ([incHigh], [Event.warnNoRules "~/.config/pdh/rules"]) :=
  ⟨(C6_rule_discovery.1 [FSEntry.mk "a.sh" true, FSEntry.mk "b.txt" false]
      "a.sh").mpr ⟨FSEntry.mk "a.sh" true, by simp, rfl, rfl⟩,
   C6_rule_discovery.2.1 pdDemo.runScript [incHigh],
   C6_rule_discovery.2.2 pdDemo "~/.config/pdh/rules" [incHigh] rfl⟩

/-- Claim C4: a malformed title or excluded-title pattern is rejected when it
is compiled up front, before the query loop starts: the command prints the
invalid-expression message and returns `False`, the whole trace is that one
print — no incident is fetched and no record is processed — and the CLI
exits with the non-zero status 254 (`sys.exit(-2)`).  The second conjunct
covers invocations that first resolve a user name. -/
theorem C4_regex_fail_fast :
    (∀ (pd : PDClient) (reC : String → Except String (String → Bool))
       (a : IncArgs) (fuel : Nat) (e : String),
      compileTitleFilters reC a.regexp a.excludedFilterRe = Except.error e →
      a.user = none →
      listIncidents pd reC a fuel
        = (LoopResult.done (some false), [Event.printInvalidRegex e])
      ∧ incListCmd pd reC a fuel = some (CmdExit.exit 254))
    ∧ (∀ (pd : PDClient) (reC : String → Except String (String → Bool))
        (a : IncArgs) (fuel : Nat) (e : String) (u : String) (v : Value),
      compileTitleFilters reC a.regexp a.excludedFilterRe = Except.error e →
      a.user = some u → pd.userIdOf u = Except.ok v →
      listIncidents pd reC a fuel
        = (LoopResult.done (some false),
           [Event.userLookup u, Event.printInvalidRegex e])
      ∧ incListCmd pd reC a fuel = some (CmdExit.exit 254)) := by
  constructor
  · intro pd reC a fuel e hcomp hu
    have h1 : listIncidents pd reC a fuel
        = (LoopResult.done (some false), [Event.printInvalidRegex e]) := by
      rw [listIncidents_nouser pd reC a fuel hu,
        listIncidentsRest_error pd reC a fuel e hcomp]
    refine ⟨h1, ?_⟩
    unfold incListCmd
    rw [h1]
  · intro pd reC a fuel e u v hcomp hu hid
    have h1 : listIncidents pd reC a fuel
        = (LoopResult.done (some false),
           [Event.userLookup u, Event.printInvalidRegex e]) := by
      unfold listIncidents
      rw [hu]
      simp only [hid, listIncidentsRest_error pd reC a fuel e hcomp]
    refine ⟨h1, ?_⟩
    unfold incListCmd
    rw [h1]

/-- Witness for C4: a rejected pattern stops the invocation before
any fetch. -/
theorem C4_regex_fail_fast_witness :
    listIncidents pdDemo reReject argsBadRe 3
      = (LoopResult.done (some false),
         [Event.printInvalidRegex "bad pattern ("])
    ∧ incListCmd pdDemo reReject argsBadRe 3 = some (CmdExit.exit 254) :=
  C4_regex_fail_fast.1 pdDemo reReject argsBadRe 3 "bad pattern (" rfl rfl

/-- Claim C2: every pass of the incident query loop executes its stages in
exactly the source order — fetch, then (if enabled) rule-apply, then the
positive/negative title filters, then the positive/negative service filters
(`stageFilters` applies the four in that order), then nested-alerts
enrichment, then the display transformation, then sort, then render — and
the bulk acknowledge/snooze/resolve actions receive the pre-transform
records `incs6` (the sequence after filtering and enrichment, before the
display transformation), not the transformed, sorted output handed to the
renderer. -/
theorem C2_pipeline_order (pd : PDClient) (a : IncArgs)
    (fre fxre : Option (String → Bool))
    (incs0 incs1 incs6 sorted : List Record) (evR evA : List Event)
    (ids : List Value)
    (hfetch : pd.incidentsList = Except.ok incs0)
    (hrules : (if a.rules then stageRules pd a.rulesPath incs0
               else (incs0, [])) = (incs1, evR))
    (henr : (if a.alerts then
               stageAlerts pd.alertsFor (stageFilters a fre fxre incs1)
             else (some (stageFilters a fre fxre incs1), []))
            = (some incs6, evA))
    (hsort : stageSort a.sortBy a.reverseSort (incFields a)
               (stageTransform a.output (incFields a) (incAlertFields a) incs6)
             = Except.ok sorted)
    (hids : optMapM (fun r => lookupField r "id") incs6 = some ids) :
    incidentPass pd a fre fxre
      = (PassResult.completed,
         Event.fetchIncidents (incStatuses a) (incUrgencies a)
           :: (evR ++ evA ++ [Event.render a.output sorted]
               ++ actionEvents a incs6)) :=
  incidentPass_completed_eq pd a fre fxre incs0 incs1 incs6 sorted evR evA ids
    hfetch hrules henr hsort hids

/-- Witness for C2: the alert-enriched, acknowledging invocation on the demo
client completes its pass with the stages in order. -/
theorem C2_pipeline_order_witness :
    (incidentPass pdDemo argsAlerts none none).1 = PassResult.completed := by
  rw [C2_pipeline_order pdDemo argsAlerts none none _ _ _ _ _ _ _
    rfl rfl rfl rfl rfl]

/-- Claim C3, counterexample: with a client whose incident call raises
`UnauthorizedException`, the incident-listing command does not catch the
failure at the command boundary — the exception propagates and the process
crashes with a traceback, unlike the user, team and service listings. -/
theorem C3_counterexample :
    incListCmd pdUnauthorized reAccept argsDefault 1
      = some (CmdExit.crash (PyExn.unauthorized "Unauthorized")) := rfl

/-- Claim C3 (amended): an authorization failure from the remote client is
caught at the command boundary, printed as a user-visible message, and makes
the command exit non-zero without crashing — for the user, team and service
listing commands.  The incident-listing command has no such handler
(`core.py:193-394` contains no `except UnauthorizedException`), so there the
exception propagates out of the command and crashes the process. -/
theorem C3_auth_handling :
    (∀ (pd : PDClient) (output : String) (fields : Option String) (m : String),
      pd.usersList = Except.error (PyExn.unauthorized m) →
      listUser pd output fields
        = (CmdResult.ret false, [Event.printUnauthorized m])
      ∧ wrapCmd (listUser pd output fields) = CmdExit.exit 1)
    ∧ (∀ (pd : PDClient) (output : String) (fields : Option String)
        (m : String),
      pd.teamsList = Except.error (PyExn.unauthorized m) →
      listTeams pd false output fields
        = (CmdResult.ret false, [Event.printUnauthorized m])
      ∧ wrapCmd (listTeams pd false output fields) = CmdExit.exit 1)
    ∧ (∀ (pd : PDClient) (output : String) (fields : Option String)
        (sortBy : Option String) (rev : Bool) (status m : String),
      pd.servicesList = Except.error (PyExn.unauthorized m) →
      listServices pd output fields sortBy rev status
        = (CmdResult.ret false, [Event.printUnauthorized m])
      ∧ wrapCmd (listServices pd output fields sortBy rev status)
        = CmdExit.exit 1)
    ∧ (∀ (pd : PDClient) (reC : String → Except String (String → Bool))
        (a : IncArgs) (fuel : Nat) (m : String),
      pd.incidentsList = Except.error (PyExn.unauthorized m) →
      a.user = none → a.regexp = none → a.excludedFilterRe = none →
      incListCmd pd reC a (fuel + 1)
        = some (CmdExit.crash (PyExn.unauthorized m))) := by
  refine ⟨?_, ?_, ?_, ?_⟩
  · intro pd output fields m h
    constructor
    · unfold listUser
      rw [h]
    · unfold wrapCmd listUser
      rw [h]
  · intro pd output fields m h
    constructor
    · simp [listTeams, h]
    · simp [wrapCmd, listTeams, h]
  · intro pd output fields sortBy rev status m h
    constructor
    · unfold listServices
      rw [h]
    · unfold wrapCmd listServices
      rw [h]
  · intro pd reC a fuel m hinc hu hr hx
    have hpass : incidentPass pd a none none
        = (PassResult.raised (PyExn.unauthorized m),
           [Event.fetchIncidents (incStatuses a) (incUrgencies a)]) := by
      unfold incidentPass
      rw [hinc]
    have hcomp : compileTitleFilters reC a.regexp a.excludedFilterRe
        = Except.ok (none, none) := by
      unfold compileTitleFilters
      rw [hr, hx]
    have h1 : listIncidents pd reC a (fuel + 1)
        = (LoopResult.raised (PyExn.unauthorized m),
           [Event.fetchIncidents (incStatuses a) (incUrgencies a)]) := by
      rw [listIncidents_nouser pd reC a (fuel + 1) hu,
        listIncidentsRest_ok pd reC a (fuel + 1) none none hcomp,
        incLoop_raised pd a none none _ _ fuel hpass]
    unfold incListCmd
    rw [h1]

/-- Witness for C3 (amended): the all-unauthorized client is caught and
exits 1 for user, team and service listing, while the incident listing
crashes. -/
theorem C3_auth_handling_witness :
    wrapCmd (listUser pdUnauthorized "table" none) = CmdExit.exit 1
    ∧ wrapCmd (listTeams pdUnauthorized false "table" none) = CmdExit.exit 1
    ∧ wrapCmd (listServices pdUnauthorized "table" none none false
        "active,warning,critical") = CmdExit.exit 1
    ∧ incListCmd pdUnauthorized reAccept argsDefault 2
      = some (CmdExit.crash (PyExn.unauthorized "Unauthorized")) :=
  ⟨(C3_auth_handling.1 pdUnauthorized "table" none "Unauthorized" rfl).2,
   (C3_auth_handling.2.1 pdUnauthorized "table" none "Unauthorized" rfl).2,
   (C3_auth_handling.2.2.1 pdUnauthorized "table" none none false
      "active,warning,critical" "Unauthorized" rfl).2,
   C3_auth_handling.2.2.2 pdUnauthorized reAccept argsDefault 1 "Unauthorized"
     rfl rfl rfl rfl⟩

/-- Claim C5: when any record in the sequence being sorted lacks a requested
sort key, the sort reports the error instead of substituting a default
(first conjunct, the Sort Engine level); in the incident pass this makes the
body print the invalid sort field together with the list of valid field
names and execute `return False` (second conjunct); the command then ends
with `done (some false)` and a non-zero exit status (third conjunct); and
`PDH.list_services` catches the same `KeyError` at its boundary, prints the
field hint, and returns `False`, exiting 1 (fourth conjunct). -/
theorem C5_sort_missing_key :
    (∀ (sf : List String) (rev : Bool) (rs : List Record) (r : Record)
       (f : String),
      r ∈ rs → f ∈ sf → lookupField r f = none →
      sortApply sf rev rs = none)
    ∧ (∀ (pd : PDClient) (a : IncArgs) (fre fxre : Option (String → Bool))
        (incs0 incs1 incs6 : List Record) (evR evA : List Event) (sb : String),
      pd.incidentsList = Except.ok incs0 →
      (if a.rules then stageRules pd a.rulesPath incs0
       else (incs0, [])) = (incs1, evR) →
      (if a.alerts then
         stageAlerts pd.alertsFor (stageFilters a fre fxre incs1)
       else (some (stageFilters a fre fxre incs1), [])) = (some incs6, evA) →
      a.sortBy = some sb →
      sortApply (if strContainsChar sb ',' then pySplit sb ',' else [sb])
        a.reverseSort
        (stageTransform a.output (incFields a) (incAlertFields a) incs6)
        = none →
      incidentPass pd a fre fxre
        = (PassResult.returnedFalse,
           Event.fetchIncidents (incStatuses a) (incUrgencies a)
             :: (evR ++ evA
                 ++ [Event.printInvalidSortField sb,
                     Event.printAvailableFields (incFields a)])))
    ∧ (∀ (pd : PDClient) (reC : String → Except String (String → Bool))
        (a : IncArgs) (fuel : Nat) (fre fxre : Option (String → Bool))
        (ev : List Event),
      a.user = none →
      compileTitleFilters reC a.regexp a.excludedFilterRe
        = Except.ok (fre, fxre) →
      incidentPass pd a fre fxre = (PassResult.returnedFalse, ev) →
      listIncidents pd reC a (fuel + 1) = (LoopResult.done (some false), ev)
      ∧ incListCmd pd reC a (fuel + 1) = some (CmdExit.exit 254))
    ∧ (∀ (pd : PDClient) (output : String) (fields : Option String)
        (sb : String) (rev : Bool) (status : String) (svcs0 : List Record),
      pd.servicesList = Except.ok svcs0 →
      (if strContainsChar sb ',' then
         sortApply (pySplit sb ',') rev (svcFiltered output fields status svcs0)
       else sortApplySingle sb rev (svcFiltered output fields status svcs0))
        = none →
      listServices pd output fields (some sb) rev status
        = (CmdResult.ret false,
           [Event.printInvalidSortField sb,
            Event.printAvailableFields (svcFields fields)])
      ∧ wrapCmd (listServices pd output fields (some sb) rev status)
        = CmdExit.exit 1) := by
  refine ⟨?_, ?_, ?_, ?_⟩
  · intro sf rev rs r f hr hf hlook
    have hkey : sortKey sf r = none :=
      optMapM_eq_none (fun k => lookupField r k) sf f hf hlook
    have houter : optMapM
        (fun r => (sortKey sf r).map (fun k => (k, r))) rs = none := by
      refine optMapM_eq_none _ rs r hr ?_
      rw [hkey]
      rfl
    unfold sortApply
    rw [houter]
    rfl
  · intro pd a fre fxre incs0 incs1 incs6 evR evA sb hfetch hrules henr hsb
      hfail
    exact incidentPass_sortfail_eq pd a fre fxre incs0 incs1 incs6 evR evA sb
      hfetch hrules henr hsb hfail
  · intro pd reC a fuel fre fxre ev hu hcomp hpass
    have h1 : listIncidents pd reC a (fuel + 1)
        = (LoopResult.done (some false), ev) := by
      rw [listIncidents_nouser pd reC a (fuel + 1) hu,
        listIncidentsRest_ok pd reC a (fuel + 1) fre fxre hcomp,
        incLoop_retFalse pd a fre fxre ev fuel hpass]
    refine ⟨h1, ?_⟩
    unfold incListCmd
    rw [h1]
  · intro pd output fields sb rev status svcs0 hsvc hfail
    have h1 : listServices pd output fields (some sb) rev status
        = (CmdResult.ret false,
           [Event.printInvalidSortField sb,
            Event.printAvailableFields (svcFields fields)]) := by
      unfold listServices
      rw [hsvc]
      simp only [hfail]
    refine ⟨h1, ?_⟩
    unfold wrapCmd
    rw [h1]

/-- Witness for C5: sorting on the absent field `nope` fails at every level —
the raw sort, the incident pass, the command exit, and `svc ls`. -/
theorem C5_sort_missing_key_witness :
    sortApply ["nope"] false [incHigh] = none
    ∧ (incidentPass pdDemo argsWatchBadSort none none).1
        = PassResult.returnedFalse
    ∧ incListCmd pdDemo reAccept argsWatchBadSort 4 = some (CmdExit.exit 254)
    ∧ wrapCmd (listServices pdDemo "table" none (some "nope") false "active")
        = CmdExit.exit 1 :=
  ⟨C5_sort_missing_key.1 ["nope"] false [incHigh] incHigh "nope"
      (List.mem_singleton.mpr rfl) (List.mem_singleton.mpr rfl) rfl,
   by
     rw [C5_sort_missing_key.2.1 pdDemo argsWatchBadSort none none _ _ _ _ _
       "nope" rfl rfl rfl rfl rfl],
   (C5_sort_missing_key.2.2.1 pdDemo reAccept argsWatchBadSort 3 none none _
      rfl rfl
      (C5_sort_missing_key.2.1 pdDemo argsWatchBadSort none none _ _ _ _ _
        "nope" rfl rfl rfl rfl rfl)).2,
   (C5_sort_missing_key.2.2.2 pdDemo "table" none "nope" false "active"
      [demoSvc] rfl rfl).2⟩

/-- Claim C8: within one pipeline pass with alerts enabled, the external
alert fetch happens exactly once per record of the filtered sequence — the
enrichment loop emits one `alertFetch` event per record (first conjunct), it
never emits more events than records (second conjunct), the whole trace of a
completed pass contains exactly those per-record fetch events and no other
alert fetch (third conjunct; the display-stage `extract_alerts` receives no
client handle and performs no call), and with alerts disabled the pass
performs no alert fetch at all (fourth conjunct). -/
theorem C8_alert_fetch_once :
    (∀ (f : Value → List Record) (rs : List Record) (ids : List Value),
      optMapM (fun r => lookupField r "id") rs = some ids →
      (stageAlerts f rs).2 = ids.map Event.alertFetch)
    ∧ (∀ (f : Value → List Record) (rs : List Record),
      ((stageAlerts f rs).2).length ≤ rs.length)
    ∧ (∀ (pd : PDClient) (a : IncArgs) (fre fxre : Option (String → Bool))
        (incs0 incs1 incs6 sorted : List Record) (evR evA : List Event)
        (ids5 ids6 : List Value),
      pd.incidentsList = Except.ok incs0 →
      (if a.rules then stageRules pd a.rulesPath incs0
       else (incs0, [])) = (incs1, evR) →
      a.alerts = true →
      optMapM (fun r => lookupField r "id")
        (stageFilters a fre fxre incs1) = some ids5 →
      stageAlerts pd.alertsFor (stageFilters a fre fxre incs1)
        = (some incs6, evA) →
      stageSort a.sortBy a.reverseSort (incFields a)
        (stageTransform a.output (incFields a) (incAlertFields a) incs6)
        = Except.ok sorted →
      optMapM (fun r => lookupField r "id") incs6 = some ids6 →
      ((incidentPass pd a fre fxre).2).filter isAlertFetch
        = ids5.map Event.alertFetch)
    ∧ (∀ (pd : PDClient) (a : IncArgs) (fre fxre : Option (String → Bool)),
      a.alerts = false →
      ((incidentPass pd a fre fxre).2).filter isAlertFetch = []) :=
  ⟨stageAlerts_events, stageAlerts_len,
   fun pd a fre fxre incs0 incs1 incs6 sorted evR evA ids5 ids6 hfetch hrules
     hal hids5 henr hsort hids6 =>
     incidentPass_alertFetch_once pd a fre fxre incs0 incs1 incs6 sorted evR
       evA ids5 ids6 hfetch hrules hal hids5 henr hsort hids6,
   incidentPass_no_alertFetch⟩

/-- Witness for C8: on the demo client the alert-enabled pass fetches alerts
exactly once for each of the two incidents, and the default pass fetches
none. -/
theorem C8_alert_fetch_once_witness :
    ((incidentPass pdDemo argsAlerts none none).2).filter isAlertFetch
      = [Value.vStr "i1", Value.vStr "i2"].map Event.alertFetch
    ∧ ((incidentPass pdDemo argsDefault none none).2).filter isAlertFetch
      = [] :=
  ⟨C8_alert_fetch_once.2.2.1 pdDemo argsAlerts none none _ _ _ _ _ _ _ _
      rfl rfl rfl rfl rfl rfl rfl,
   C8_alert_fetch_once.2.2.2 pdDemo argsDefault none none rfl⟩

/-- Claim C9, counterexample: the watching loop can terminate on an internal
condition.  With watch on and an invalid sort field, the first pass prints
the sort error and executes `return False` — the loop result is `done (some
false)`, not a still-running loop, although `watch = true`. -/
theorem C9_counterexample :
    argsWatchBadSort.watch = true
    ∧ (listIncidents pdDemo reAccept argsWatchBadSort 5).1
        = LoopResult.done (some false) := ⟨rfl, rfl⟩

/-- Claim C9 (amended): the incident query loop terminates after exactly one
pass when watch is off (first conjunct); when watch is on and the pass
completes, the loop never terminates on its own — after any number of
iterations it is still running (second conjunct) — and each iteration
appends exactly the pass trace followed by a sleep of the configured
interval and a console clear, with no backoff, no jitter and no iteration
bound (third conjunct).  However, a pass that does not complete — an invalid
sort field executing `return False`, or an uncaught exception — does
terminate the watching loop, so "no internal condition ever terminates it"
holds only for passes that complete. -/
theorem C9_watch_loop :
    (∀ (pd : PDClient) (a : IncArgs) (fre fxre : Option (String → Bool))
       (ev : List Event) (n : Nat),
      incidentPass pd a fre fxre = (PassResult.completed, ev) →
      a.watch = false →
      incLoop pd a fre fxre (n + 1) = (LoopResult.done none, ev))
    ∧ (∀ (pd : PDClient) (a : IncArgs) (fre fxre : Option (String → Bool))
        (ev : List Event),
      incidentPass pd a fre fxre = (PassResult.completed, ev) →
      a.watch = true →
      ∀ n : Nat, (incLoop pd a fre fxre n).1 = LoopResult.running)
    ∧ (∀ (pd : PDClient) (a : IncArgs) (fre fxre : Option (String → Bool))
        (ev : List Event) (n : Nat),
      incidentPass pd a fre fxre = (PassResult.completed, ev) →
      a.watch = true →
      (incLoop pd a fre fxre (n + 1)).2
        = ev ++ [Event.sleepFor a.timeout, Event.clearScreen]
          ++ (incLoop pd a fre fxre n).2) :=
  ⟨incLoop_completed_nowatch,
   fun pd a fre fxre ev hpass hw => incLoop_watch_running pd a fre fxre ev
     hpass hw,
   fun pd a fre fxre ev n hpass hw => incLoop_watch_trace pd a fre fxre ev n
     hpass hw⟩

/-- Witness for C9: on the demo client the non-watch invocation finishes in
one pass; the watch invocation is still running after six iterations and its
third trace is one pass, a 7-second sleep and a clear, then the rest. -/
theorem C9_watch_loop_witness :
    incLoop pdDemo argsDefault none none 3
      = (LoopResult.done none, (incidentPass pdDemo argsDefault none none).2)
    ∧ (incLoop pdDemo argsWatch none none 6).1 = LoopResult.running
    ∧ (incLoop pdDemo argsWatch none none 3).2
      = (incidentPass pdDemo argsWatch none none).2
        ++ [Event.sleepFor 7, Event.clearScreen]
        ++ (incLoop pdDemo argsWatch none none 2).2 :=
  ⟨C9_watch_loop.1 pdDemo argsDefault none none _ 2 rfl rfl,
   C9_watch_loop.2.1 pdDemo argsWatch none none _ rfl rfl 6,
   C9_watch_loop.2.2 pdDemo argsWatch none none _ 2 rfl rfl⟩

/-- Claim C10: `PDH.list_incidents` is declared `-> bool` and returns `False`
on an invalid regular expression and on an invalid sort field, but a
successful non-watch run falls off the end of the function after `break` and
returns `None` rather than `True` (first conjunct); the error paths return
`False` (second and third conjuncts); and to a caller testing the declared
boolean contract the successful `None` is just as falsy as the failure
`False`, while `True` is never produced (final conjuncts). -/
theorem C10_return_contract :
    (∀ (pd : PDClient) (reC : String → Except String (String → Bool))
       (a : IncArgs) (fuel : Nat) (fre fxre : Option (String → Bool))
       (ev : List Event),
      a.user = none →
      compileTitleFilters reC a.regexp a.excludedFilterRe
        = Except.ok (fre, fxre) →
      incidentPass pd a fre fxre = (PassResult.completed, ev) →
      a.watch = false →
      listIncidents pd reC a (fuel + 1) = (LoopResult.done none, ev))
    ∧ (∀ (pd : PDClient) (reC : String → Except String (String → Bool))
        (a : IncArgs) (fuel : Nat) (e : String),
      a.user = none →
      compileTitleFilters reC a.regexp a.excludedFilterRe = Except.error e →
      listIncidents pd reC a fuel
        = (LoopResult.done (some false), [Event.printInvalidRegex e]))
    ∧ (∀ (pd : PDClient) (reC : String → Except String (String → Bool))
        (a : IncArgs) (fuel : Nat) (fre fxre : Option (String → Bool))
        (ev : List Event),
      a.user = none →
      compileTitleFilters reC a.regexp a.excludedFilterRe
        = Except.ok (fre, fxre) →
      incidentPass pd a fre fxre = (PassResult.returnedFalse, ev) →
      listIncidents pd reC a (fuel + 1) = (LoopResult.done (some false), ev))
    ∧ pyFalsy none = true ∧ pyFalsy (some false) = true
    ∧ pyFalsy (some true) = false := by
  refine ⟨?_, ?_, ?_, rfl, rfl, rfl⟩
  · intro pd reC a fuel fre fxre ev hu hcomp hpass hw
    rw [listIncidents_nouser pd reC a (fuel + 1) hu,
      listIncidentsRest_ok pd reC a (fuel + 1) fre fxre hcomp,
      incLoop_completed_nowatch pd a fre fxre ev fuel hpass hw]
  · intro pd reC a fuel e hu hcomp
    rw [listIncidents_nouser pd reC a fuel hu,
      listIncidentsRest_error pd reC a fuel e hcomp]
  · intro pd reC a fuel fre fxre ev hu hcomp hpass
    rw [listIncidents_nouser pd reC a (fuel + 1) hu,
      listIncidentsRest_ok pd reC a (fuel + 1) fre fxre hcomp,
      incLoop_retFalse pd a fre fxre ev fuel hpass]

/-- Witness for C10: the successful default run returns `None` (falsy), the
malformed-pattern run returns `False`. -/
theorem C10_return_contract_witness :
    (listIncidents pdDemo reAccept argsDefault 1).1 = LoopResult.done none
    ∧ (listIncidents pdDemo reReject argsBadRe 1).1
        = LoopResult.done (some false) :=
  ⟨by rw [C10_return_contract.1 pdDemo reAccept argsDefault 0 none none _
      rfl rfl rfl rfl],
   by rw [C10_return_contract.2.1 pdDemo reReject argsBadRe 1 "bad pattern ("
      rfl rfl]⟩
